import Mathlib

/-!
Verification of the site-generation pipeline in `generator.py`
(SC-Connections/Top-10).

The Python module is shallowly embedded: JSON values are the inductive
type `Json`, Python dictionaries are association lists, machine floats
are represented by exact unnormalised fractions (`PyNum`) — all inputs
appearing in the theorems below are exactly representable as IEEE
doubles with exact arithmetic, so the exact-fraction semantics agrees
with CPython on them.  Fallible Python code is embedded as `Except Unit`
(an `.error` is a raised exception); the `try/except` blocks of the
source become explicit matches on those results.  Effects that the
source performs (sleeping, reading the template file, writing the
output file) are tracked as counters and lists in result records.
-/

/-- An exact numeric value standing for a Python float: the fraction
`num / den`.  Fractions are not normalised (no gcd), and every value
built by the embedding has `0 < den`. -/
structure PyNum where
  num : ℤ
  den : ℤ
deriving DecidableEq

/-- The rational value of a `PyNum`. -/
def PyNum.toRat (x : PyNum) : ℚ := (x.num : ℚ) / (x.den : ℚ)

/-- A JSON value, as produced by `response.json()` in `call_api`.
Python dictionaries are modelled as association lists (keys unique in
all inputs considered); numbers as exact fractions. -/
inductive Json where
  | null
  | bool (b : Bool)
  | num (v : PyNum)
  | str (s : String)
  | arr (elems : List Json)
  | obj (fields : List (String × Json))

/-- Python truthiness (`bool(x)`) of a JSON value: `None`, `False`,
zero, and empty strings/lists/dicts are falsy. -/
def truthy : Json → Bool
  | .null => false
  | .bool b => b
  | .num v => !(v.num == 0)
  | .str s => !(s == "")
  | .arr xs => !xs.isEmpty
  | .obj fs => !fs.isEmpty

/-- Python `a or b` on JSON values: `b` when `a` is falsy, else `a`. -/
def pyOr (a b : Json) : Json := if truthy a then a else b

/-- Python `len(x)`: defined for strings, lists and dicts; `none`
models the `TypeError` raised for other values. -/
def pyLen : Json → Option ℕ
  | .str s => some s.length
  | .arr xs => some xs.length
  | .obj fs => some fs.length
  | _ => none

/-- Characters stripped by Python `str.strip()`. -/
def isPySpace (c : Char) : Bool :=
  c == ' ' || c == '\t' || c == '\n' || c == '\r' || c == '\x0b' || c == '\x0c'

/-- Python `str.strip()`. -/
def pyStrip (s : String) : String :=
  ⟨((s.data.dropWhile isPySpace).reverse.dropWhile isPySpace).reverse⟩

/-- Left-to-right non-overlapping replacement on character lists, the
semantics of Python `str.replace`.  The first argument is fuel, always
instantiated with the length of the scanned list so it never runs out. -/
def replaceAllFuel (pat rep : List Char) : ℕ → List Char → List Char
  | 0, s => s
  | fuel + 1, s =>
    match s with
    | [] => []
    | c :: cs =>
      if !pat.isEmpty && pat.isPrefixOf (c :: cs) then
        rep ++ replaceAllFuel pat rep fuel (List.drop pat.length (c :: cs))
      else
        c :: replaceAllFuel pat rep fuel cs

/-- Python `s.replace(pat, rep)`. -/
def pyReplace (s pat rep : String) : String :=
  ⟨replaceAllFuel pat.data rep.data s.data.length s.data⟩

/-- Python `str.lower()` (ASCII case folding, enough for the inputs of
this development). -/
def pyLower (s : String) : String := ⟨s.data.map Char.toLower⟩

/-- Python `'sep'.join(parts)`. -/
def joinWith (sep : String) : List String → String
  | [] => ""
  | [x] => x
  | x :: xs => x ++ sep ++ joinWith sep xs

/-- Split a character list at the first occurrence of `c`, if any. -/
def splitFirst (c : Char) : List Char → Option (List Char × List Char)
  | [] => none
  | x :: xs =>
    if x == c then some ([], xs)
    else (splitFirst c xs).map (fun p => (x :: p.1, p.2))

def allDigits (cs : List Char) : Bool := cs.all (fun c => c.isDigit)

/-- Numeric value of a digit string. -/
def digitsVal (cs : List Char) : ℕ :=
  cs.foldl (fun n c => n * 10 + (c.toNat - 48)) 0

/-- Mantissa of a Python float literal: digits with an optional decimal
point, at least one digit overall. -/
def parseMantissa (cs : List Char) : Option PyNum :=
  match splitFirst '.' cs with
  | none =>
    if !cs.isEmpty && allDigits cs then some ⟨(digitsVal cs : ℤ), 1⟩ else none
  | some (i, f) =>
    if (!i.isEmpty || !f.isEmpty) && allDigits i && allDigits f then
      some ⟨(digitsVal i : ℤ) * (10 : ℤ) ^ f.length + (digitsVal f : ℤ), (10 : ℤ) ^ f.length⟩
    else none

/-- Apply an exponent part (the text after `e`) to a mantissa value. -/
def applyExp (x : PyNum) (cs : List Char) : Option PyNum :=
  match cs with
  | '-' :: t =>
    if !t.isEmpty && allDigits t then some ⟨x.num, x.den * (10 : ℤ) ^ digitsVal t⟩ else none
  | '+' :: t =>
    if !t.isEmpty && allDigits t then some ⟨x.num * (10 : ℤ) ^ digitsVal t, x.den⟩ else none
  | t =>
    if !t.isEmpty && allDigits t then some ⟨x.num * (10 : ℤ) ^ digitsVal t, x.den⟩ else none

/-- Python `float(s)` on a string: optional sign, digits with optional
decimal point, optional exponent.  `none` models `ValueError`.  The
exotic forms `inf`, `nan` and underscore separators are outside the
model; no theorem below depends on them. -/
def parsePyFloat (s : String) : Option PyNum :=
  let cs := s.data.map Char.toLower
  let signBody : Bool × List Char :=
    match cs with
    | '-' :: t => (true, t)
    | '+' :: t => (false, t)
    | t => (false, t)
  let mkSign : PyNum → PyNum :=
    fun x => if signBody.1 then ⟨-x.num, x.den⟩ else x
  match splitFirst 'e' signBody.2 with
  | none => (parseMantissa signBody.2).map mkSign
  | some (m, e) => (parseMantissa m).bind (fun mv => (applyExp mv e).map mkSign)

/-- Exceptions distinguished by `extract_product_info`: its inner
`except` clause catches `ValueError` (and `ZeroDivisionError`, handled
separately) but not `TypeError`. -/
inductive PyErr where
  | valueErr
  | typeErr
deriving DecidableEq

/-- Python `float(x)` on a JSON value: strings are parsed, numbers and
booleans convert, everything else raises `TypeError`. -/
def pyFloat : Json → Except PyErr PyNum
  | .str s =>
    match parsePyFloat s with
    | some v => .ok v
    | none => .error .valueErr
  | .num v => .ok v
  | .bool b => .ok ⟨if b then 1 else 0, 1⟩
  | _ => .error .typeErr

/-- Truncation toward zero of a rational, the behaviour of Python
`int()` applied to a float. -/
def truncQ (q : ℚ) : ℤ := if 0 ≤ q then ⌊q⌋ else ⌈q⌉

/-- String form of an integral or fractional numeric value.  Integral
values print like Python floats of integral value ("5.0"); the decimal
rendering of non-integral floats is abstracted (no theorem below
depends on it). -/
def numRepr (x : PyNum) : String :=
  if x.den = 1 then toString x.num ++ ".0"
  else toString x.num ++ "/" ++ toString x.den

mutual

/-- Python `repr` of a JSON value, used by `str` for containers. -/
def pyRepr : Json → String
  | .null => "None"
  | .bool true => "True"
  | .bool false => "False"
  | .num v => numRepr v
  | .str s => "\x27" ++ s ++ "\x27"
  | .arr xs => "[" ++ joinWith ", " (pyReprList xs) ++ "]"
  | .obj fs => "\x7b" ++ joinWith ", " (pyReprObj fs) ++ "\x7d"

def pyReprList : List Json → List String
  | [] => []
  | x :: xs => pyRepr x :: pyReprList xs

def pyReprObj : List (String × Json) → List String
  | [] => []
  | (k, v) :: fs => ("\x27" ++ k ++ "\x27: " ++ pyRepr v) :: pyReprObj fs

end

/-- Python `str(x)` of a JSON value, as interpolated by f-strings. -/
def pyStr : Json → String
  | .str s => s
  | j => pyRepr j

/-- The static affiliate identifier `AFFILIATE_TAG` of the source. -/
def AFFILIATE_TAG : String := "scconnec0d-20"

/-- The price-string normalisation of `extract_product_info`:
`s.replace('$', '').replace(',', '').strip()`. -/
def stripPrice (s : String) : String :=
  pyStrip (pyReplace (pyReplace s "$" "") "," "")

/-- `if isinstance(x, str): x = stripPrice(x)` — non-strings pass
through unchanged. -/
def stripIfStr : Json → Json
  | .str s => .str (stripPrice s)
  | j => j

/-- Field resolution with the two naming schemes:
`product.get(k1) or product.get(k2, '')`. -/
def resolve2 (fs : List (String × Json)) (k1 k2 : String) : Json :=
  pyOr ((fs.lookup k1).getD .null) ((fs.lookup k2).getD (.str ""))

/-- The canonical product record built by `extract_product_info`.
`title`, `image` and `asin` keep their raw JSON values (the source
stores them unconverted); the remaining fields are the formatted
strings and numbers the source computes. -/
structure Product where
  title : Json
  image : Json
  asin : Json
  price : String
  original_price : String
  discount : ℤ
  affiliate_link : String

/-- The discount computation of `extract_product_info` (lines 157-166).
Runs only when both (already stripped) price values are truthy; a
`ValueError` from `float()` or a `ZeroDivisionError` is caught and
leaves the discount at 0, while a `TypeError` from `float()` escapes
the inner `try` (it is not in its except list) and is reported as
`.error`.  With `p = pn/pd` and `o = on/od` (positive denominators),
`o > p` is the integer comparison below, and
`int(((o - p) / o) * 100)` is the truncated quotient below. -/
def computeDiscount (price_str original_price_str : Json) : Except Unit ℤ :=
  if truthy original_price_str && truthy price_str then
    match pyFloat price_str with
    | .error .typeErr => .error ()
    | .error .valueErr => .ok 0
    | .ok p =>
      match pyFloat original_price_str with
      | .error .typeErr => .error ()
      | .error .valueErr => .ok 0
      | .ok o =>
        if o.num * p.den > p.num * o.den then
          if o.num = 0 then .ok 0
          else .ok (Int.tdiv (100 * (o.num * p.den - p.num * o.den)) (p.den * o.num))
        else .ok 0
  else .ok 0

/-- The body of the `try` in `extract_product_info`: `.error ()` is an
exception escaping the body (an `AttributeError` from `.get` on a
non-dict, or a `TypeError` from `float()`), `.ok none` is the
validation gate rejecting the record, `.ok (some info)` is success. -/
def extract_core (product : Json) : Except Unit (Option Product) :=
  match product with
  | .obj fs =>
    let title := resolve2 fs "title" "product_title"
    let image := resolve2 fs "image" "product_photo"
    let asin := resolve2 fs "asin" "product_asin"
    let price_str := stripIfStr (resolve2 fs "price" "product_price")
    let original_price_str := stripIfStr (resolve2 fs "original_price" "product_original_price")
    match computeDiscount price_str original_price_str with
    | .error e => .error e
    | .ok discount =>
      let info : Product :=
        { title := title
          image := image
          asin := asin
          price := if truthy price_str then "$" ++ pyStr price_str else "Price not available"
          original_price := if truthy original_price_str then "$" ++ pyStr original_price_str else ""
          discount := discount
          affiliate_link :=
            if truthy asin then
              "https://www.amazon.com/dp/" ++ pyStr asin ++ "?tag=" ++ AFFILIATE_TAG
            else "" }
      if !truthy info.title || !truthy info.image || !truthy info.asin then .ok none
      else .ok (some info)
  | _ => .error ()

/-- `extract_product_info` (lines 139-187): the whole body runs under
`try ... except Exception: return None`, so any escaping exception
becomes `none`. -/
def extract_product_info (product : Json) : Option Product :=
  match extract_core product with
  | .ok r => r
  | .error _ => none

/-- `MAX_RETRIES` of the source. -/
def MAX_RETRIES : ℕ := 3

/-- `RETRY_DELAY` (seconds) of the source. -/
def RETRY_DELAY : ℕ := 2

/-- The recursion of `call_api` (lines 63-82), with the HTTP request of
attempt `retry_count` abstracted as `handler retry_count` (`none` is a
raised `RequestException`, `some` the parsed JSON body).  The bounded
recursion `if retry_count < MAX_RETRIES then recurse (retry_count+1)`
is expressed with the remaining-retries count as structural fuel:
`remaining = MAX_RETRIES - retry_count`, and `retry_count <
MAX_RETRIES` exactly when `remaining > 0`. -/
def call_api_from (handler : ℕ → Option Json) : ℕ → ℕ → Option Json
  | remaining, retry_count =>
    match handler retry_count with
    | some v => some v
    | none =>
      match remaining with
      | 0 => none
      | r + 1 => call_api_from handler r (retry_count + 1)

/-- `call_api(endpoint, params, retry_count)`: returns the parsed JSON
of the first successful attempt, or `none` (Python `None`) after
exhausting the retries.  It never raises. -/
def call_api (handler : ℕ → Option Json) (retry_count : ℕ) : Option Json :=
  call_api_from handler (MAX_RETRIES - retry_count) retry_count

/-- Number of retries (equivalently, `time.sleep(RETRY_DELAY)` pauses)
performed by `call_api`, instrumented alongside `call_api_from`. -/
def call_api_retries_from (handler : ℕ → Option Json) : ℕ → ℕ → ℕ
  | remaining, retry_count =>
    match handler retry_count with
    | some _ => 0
    | none =>
      match remaining with
      | 0 => 0
      | r + 1 => 1 + call_api_retries_from handler r (retry_count + 1)

/-- Retry count of a `call_api` invocation started at `retry_count`. -/
def call_api_retries (handler : ℕ → Option Json) (retry_count : ℕ) : ℕ :=
  call_api_retries_from handler (MAX_RETRIES - retry_count) retry_count

/-- The body of `search_products` after its `call_api` call (lines
97-112): `data` is the client result (`none` = Python `None`).  Falsy
data yields `[]`; for a dict the `data` key takes precedence (its value
must itself be a dict, or the `.get` raises `AttributeError`, modelled
as `.error`), then a top-level `products` key, then a bare list is used
directly, and anything else yields `[]`.  The final `len(products)` in
the log line raises `TypeError` when the selected value has no length. -/
def search_products (data : Option Json) : Except Unit Json :=
  match data with
  | none => .ok (.arr [])
  | some d =>
    if truthy d then
      let selected : Except Unit Json :=
        match d with
        | .obj fs =>
          match fs.lookup "data" with
          | some inner =>
            match inner with
            | .obj ifs => .ok ((ifs.lookup "products").getD (.arr []))
            | _ => .error ()
          | none =>
            match fs.lookup "products" with
            | some v => .ok v
            | none => .ok (.arr [])
        | .arr _ => .ok d
        | _ => .ok (.arr [])
      match selected with
      | .error e => .error e
      | .ok products =>
        match pyLen products with
        | none => .error ()
        | some _ => .ok products
    else .ok (.arr [])

/-- The normalisation policy exactly as the specification words it
(refinement comparison for the normalizer claim): the `data` branch is
taken only when the `data` value itself contains a `products` key. -/
def normalizeSpec : Json → Json
  | .obj fs =>
    (match
      (match fs.lookup "data" with
       | some (.obj ifs) => ifs.lookup "products"
       | _ => none) with
     | some v => v
     | none =>
       match fs.lookup "products" with
       | some v => v
       | none => .arr [])
  | .arr xs => .arr xs
  | _ => .arr []

/-- The body of `get_product_details` after its `call_api` call (lines
126-136): falsy data yields `None`; a dict yields its `data` value when
present, else itself; anything else yields `None`. -/
def get_product_details (data : Option Json) : Option Json :=
  match data with
  | none => none
  | some d =>
    if truthy d then
      match d with
      | .obj fs => some ((fs.lookup "data").getD d)
      | _ => none
    else none

/-- The external collaborators of one pipeline run: the environment
secret, the parsed niches file (`none` = unreadable, raising in
`read_niches`), the template file contents (`none` = missing, raising
`FileNotFoundError` in `load_template`), and the two API endpoints as
attempt-indexed handlers fed to `call_api` (search keyed by keyword,
detail keyed by the asin value sent in the params). -/
structure Env where
  apiKey : String
  nichesFile : Option (List (String × String))
  template : Option String
  searchHandler : String → ℕ → Option Json
  detailHandler : Json → ℕ → Option Json

/-- `slugify(niche)`: models the python-slugify call for ASCII input —
lowercase, alphanumeric runs joined by single hyphens, no leading or
trailing hyphens. -/
def slugify (s : String) : String :=
  let lowered := (pyLower s).data
  let words := (lowered.map (fun c => if c.isAlphanum then c else ' ')).foldr
    (fun c acc =>
      match c, acc with
      | ' ', ws => [] :: ws
      | c, w :: ws => (c :: w) :: ws
      | c, [] => [[c]])
    [[]]
  joinWith "-" ((words.filter (fun w => !w.isEmpty)).map (fun w => ⟨w⟩))

/-- `build_product_html` (lines 190-204): the f-string, character for
character, with the two conditional spans. -/
def build_product_html (p : Product) : String :=
  "\n    <div class=\"product\">\n        <h2>" ++ pyStr p.title
  ++ "</h2>\n        <img src=\"" ++ pyStr p.image ++ "\" alt=\"" ++ pyStr p.title
  ++ "\">\n        <div class=\"price-info\">\n            <span class=\"price\">" ++ p.price
  ++ "</span>\n            "
  ++ (if p.original_price ≠ "" then "<span class=\"old\">" ++ p.original_price ++ "</span>" else "")
  ++ "\n            "
  ++ (if p.discount > 0 then "<span class=\"discount\">" ++ toString p.discount ++ "% off</span>" else "")
  ++ "\n        </div>\n        <a href=\"" ++ p.affiliate_link
  ++ "\" target=\"_blank\" rel=\"noopener noreferrer\">View on Amazon</a>\n    </div>\n    "

/-- The fixed meta-description sentence of `generate_site`. -/
def metaDescription (niche : String) : String :=
  "Discover the best " ++ pyLower niche ++ " available on Amazon. "
  ++ "Our expert-curated list features the top-rated products with detailed reviews, "
  ++ "pricing, and direct purchase links. Updated daily with the latest deals."

/-- The rendering step of `generate_site` (lines 259-271): join the
product fragments with newlines and substitute the three placeholders
by literal replacement. -/
def renderPage (template niche : String) (details : List Product) : String :=
  let products_html := joinWith "\n" (details.map build_product_html)
  let html := pyReplace template "\x7b\x7bNICHE_TITLE\x7d\x7d" niche
  let html := pyReplace html "\x7b\x7bMETA_DESCRIPTION\x7d\x7d" (metaDescription niche)
  pyReplace html "\x7b\x7bPRODUCTS\x7d\x7d" products_html

/-- `product.get('asin') or product.get('product_asin', '')` of the
driver loop (line 229). -/
def resolveAsin (fs : List (String × Json)) : Json :=
  pyOr ((fs.lookup "asin").getD .null) ((fs.lookup "product_asin").getD (.str ""))

/-- Python values supporting `x[:50]`: the log line
`info['title'][:50]` raises `TypeError` for any other title value. -/
def sliceable : Json → Bool
  | .str _ => true
  | .arr _ => true
  | _ => false

/-- Lines 235-242 of the driver loop: direct extraction, and when the
result is falsy or missing title/image, one supplementary detail fetch
and re-extraction.  Returns the resulting info and the number of
detail-endpoint calls made (0 or 1). -/
def candidateInfo (env : Env) (product : Json) (asin : Json) : Option Product × ℕ :=
  let info0 := extract_product_info product
  let needsFetch : Bool :=
    match info0 with
    | none => true
    | some p => !truthy p.title || !truthy p.image
  if needsFetch then
    (match get_product_details (call_api (env.detailHandler asin) 0) with
     | some full_details => extract_product_info full_details
     | none => info0, 1)
  else (info0, 0)

/-- Observable result of the per-product loop of `generate_site`
(lines 227-251): the accepted products in acceptance order, the number
of `time.sleep(0.5)` pauses, the number of detail-endpoint calls, and
whether an exception escaped the loop (aborting the niche). -/
structure LoopRes where
  details : List Product
  sleeps : ℕ
  detailCalls : ℕ
  raised : Bool

/-- The per-product loop.  A candidate that is not a dict raises
`AttributeError` at `product.get` (aborting with no pause); a missing
asin hits `continue`, skipping the pause; an accepted product whose
title is not sliceable raises `TypeError` in the success log line after
being appended and before the pause.  Every other candidate — accepted
or skipped — is followed by exactly one pause. -/
def product_loop (env : Env) : List Json → LoopRes
  | [] => ⟨[], 0, 0, false⟩
  | product :: rest =>
    match product with
    | .obj fs =>
      let asin := resolveAsin fs
      if truthy asin then
        let step := candidateInfo env product asin
        match step.1 with
        | some p =>
          if sliceable p.title then
            let r := product_loop env rest
            ⟨p :: r.details, r.sleeps + 1, r.detailCalls + step.2, r.raised⟩
          else ⟨[p], 0, step.2, true⟩
        | none =>
          let r := product_loop env rest
          ⟨r.details, r.sleeps + 1, r.detailCalls + step.2, r.raised⟩
      else product_loop env rest
    | _ => ⟨[], 0, 0, true⟩

/-- Per-niche outcome as seen by `main`: the returned boolean, or an
exception caught by `main`'s per-niche handler. -/
inductive NicheOutcome where
  | ok (success : Bool)
  | exn
deriving DecidableEq

/-- Observable result of `generate_site` for one niche. -/
structure GenResult where
  outcome : NicheOutcome
  accepted : List Product
  sleeps : ℕ
  templateReads : ℕ
  detailCalls : ℕ
  write : Option (String × String)

/-- `generate_site` (lines 207-283).  Search, normalise, cap at 10
candidates, run the loop, and — only when at least one product was
accepted — load the template (a read per niche; `none` raises
`FileNotFoundError`, caught by `main` as a niche failure), render, and
write `sites/<slug>/index.html`.  A truthy non-list `products` value
raises before any pause (string items lack `.get`; dicts cannot be
sliced). -/
def generate_site (env : Env) (niche keyword : String) : GenResult :=
  match search_products (call_api (env.searchHandler keyword) 0) with
  | .error _ => ⟨.exn, [], 0, 0, 0, none⟩
  | .ok products =>
    if truthy products then
      match products with
      | .arr xs =>
        let r := product_loop env (xs.take 10)
        if r.raised then ⟨.exn, r.details, r.sleeps, 0, r.detailCalls, none⟩
        else if r.details.isEmpty then ⟨.ok false, r.details, r.sleeps, 0, r.detailCalls, none⟩
        else
          match env.template with
          | none => ⟨.exn, r.details, r.sleeps, 1, r.detailCalls, none⟩
          | some template =>
            ⟨.ok true, r.details, r.sleeps, 1, r.detailCalls,
              some ("sites/" ++ slugify niche ++ "/index.html", renderPage template niche r.details)⟩
      | _ => ⟨.exn, [], 0, 0, 0, none⟩
    else ⟨.ok false, [], 0, 0, 0, none⟩

/-- Observable result of a whole run of `main`. -/
structure RunResult where
  exitCode : ℕ
  writes : List (String × String)
  sleeps : ℕ
  templateReads : ℕ
  successCount : ℕ
  failedCount : ℕ

/-- The niche loop of `main` (lines 317-325): every niche is processed;
an exception is caught and counted as a failure. -/
def runLoop (env : Env) : List (String × String) → RunResult
  | [] => ⟨0, [], 0, 0, 0, 0⟩
  | (niche, keyword) :: rest =>
    let g := generate_site env niche keyword
    let r := runLoop env rest
    { exitCode := 0
      writes := g.write.toList ++ r.writes
      sleeps := g.sleeps + r.sleeps
      templateReads := g.templateReads + r.templateReads
      successCount := (if g.outcome = .ok true then 1 else 0) + r.successCount
      failedCount := (if g.outcome = .ok true then 0 else 1) + r.failedCount }

/-- `main` (lines 286-340): missing API key, unreadable or empty niche
list are fatal (exit 1 before any niche); otherwise all niches with
truthy `niche` and `keyword` fields run, and the exit code is 0 exactly
when at least one site was generated. -/
def pymain (env : Env) : RunResult :=
  if env.apiKey = "" then ⟨1, [], 0, 0, 0, 0⟩
  else
    match env.nichesFile with
    | none => ⟨1, [], 0, 0, 0, 0⟩
    | some rows =>
      let niches := rows.filter (fun r => !(r.1 == "") && !(r.2 == ""))
      if niches.isEmpty then ⟨1, [], 0, 0, 0, 0⟩
      else
        let r := runLoop env niches
        { r with exitCode := if r.successCount = 0 then 1 else 0 }

/-- The acceptance decision for a single candidate, as an order-free
function: the product the loop would accept for this candidate, if any. -/
def acceptedOf (env : Env) (product : Json) : Option Product :=
  match product with
  | .obj fs =>
    let asin := resolveAsin fs
    if truthy asin then (candidateInfo env product asin).1 else none
  | _ => none

/-- The accepted products of a candidate list, in candidate order. -/
def acceptedProducts (env : Env) (candidates : List Json) : List Product :=
  candidates.filterMap (acceptedOf env)

/-- Candidates with a truthy asin after both naming schemes — exactly
those whose iteration reaches the pause. -/
def hasTruthyAsin : Json → Bool
  | .obj fs => truthy (resolveAsin fs)
  | _ => false

/-- The (stripped) price value `extract_product_info` would feed to
`float()`, when it parses: the resolved, possibly stripped `price`
field of a raw product. -/
def parsedPrice (j : Json) : Option PyNum :=
  match j with
  | .obj fs =>
    match pyFloat (stripIfStr (resolve2 fs "price" "product_price")) with
    | .ok x => some x
    | .error _ => none
  | _ => none

/-- The parsed original-price value of a raw product, when it parses. -/
def parsedOriginal (j : Json) : Option PyNum :=
  match j with
  | .obj fs =>
    match pyFloat (stripIfStr (resolve2 fs "original_price" "product_original_price")) with
    | .ok x => some x
    | .error _ => none
  | _ => none

/-- A raw product with fixed non-empty title/image/asin and the given
price strings, for exercising the discount computation. -/
def mkRaw (ps os : String) : Json :=
  .obj [("title", .str "T"), ("image", .str "I"), ("asin", .str "A"),
        ("price", .str ps), ("original_price", .str os)]

/-- A complete raw product in the "simple" naming scheme. -/
def goodObj : Json :=
  .obj [("title", .str "Widget"), ("image", .str "img.jpg"), ("asin", .str "B000000001"),
        ("price", .str "$10.00"), ("original_price", .str "$20.00")]

/-- The canonical record `extract_product_info` produces for `goodObj`. -/
def goodProduct : Product :=
  { title := .str "Widget"
    image := .str "img.jpg"
    asin := .str "B000000001"
    price := "$10.00"
    original_price := "$20.00"
    discount := 50
    affiliate_link := "https://www.amazon.com/dp/B000000001?tag=" ++ AFFILIATE_TAG }

/-- A raw product with no asin under either naming scheme. -/
def noAsinObj : Json :=
  .obj [("title", .str "Widget2"), ("image", .str "i2.jpg")]

/-- A run environment whose search endpoint always returns one complete
product and whose template file is missing: two niches to process. -/
def envNoTemplate : Env :=
  { apiKey := "k"
    nichesFile := some [("A", "a"), ("B", "b")]
    template := none
    searchHandler := fun _ _ => some (.obj [("products", .arr [goodObj])])
    detailHandler := fun _ _ => none }

/-- The same environment with a present template. -/
def envWithTemplate : Env :=
  { envNoTemplate with template := some "<html>\x7b\x7bPRODUCTS\x7d\x7d</html>" }

/-! ## Theorems -/

/-- C3: `call_api` retries a failed request up to `MAX_RETRIES = 3`
times: against an endpoint failing exactly `N < 3` times and then
succeeding, it returns the parsed success payload; against an endpoint
that always fails, it returns the failure sentinel `none`
(distinguishable from any successful JSON result) after exactly 3
retries — and, being a total function into `Option`, it never raises. -/
theorem C3_api_retry_policy (handler : ℕ → Option Json) (N : ℕ) (payload : Json)
    (hfail : ∀ k, k < N → handler k = none) (hsucc : handler N = some payload)
    (hN : N < 3)
    (hAll : ℕ → Option Json) (hAllFail : ∀ k, hAll k = none) :
    call_api handler 0 = some payload ∧
    call_api hAll 0 = none ∧ call_api_retries hAll 0 = 3 := by
  refine ⟨?_, ?_, ?_⟩
  · interval_cases N
    · simp [call_api, call_api_from, MAX_RETRIES, hsucc]
    · simp [call_api, call_api_from, MAX_RETRIES, hsucc, hfail 0 (by norm_num)]
    · simp [call_api, call_api_from, MAX_RETRIES, hsucc,
        hfail 0 (by norm_num), hfail 1 (by norm_num)]
  · simp [call_api, call_api_from, MAX_RETRIES, hAllFail]
  · simp [call_api_retries, call_api_retries_from, MAX_RETRIES, hAllFail]

/-- Witness for C3 at a handler failing twice then succeeding, and the
always-failing handler. -/
theorem C3_api_retry_policy_witness :
    call_api (fun k => if k < 2 then none else some (.str "ok")) 0 = some (.str "ok") ∧
    call_api (fun _ => none) 0 = none ∧ call_api_retries (fun _ => none) 0 = 3 :=
  C3_api_retry_policy (fun k => if k < 2 then none else some (.str "ok")) 2 (.str "ok")
    (fun _ hk => if_pos hk) (by rfl) (by decide) (fun _ => none) (fun _ => rfl)

/-- C2 counterexample: on a response having a `data` key (whose value
lacks `products`) next to a top-level `products` key, the code returns
the empty list while the claimed ordered policy (`normalizeSpec`, the
spec's wording) returns the top-level list. -/
theorem C2_normalizer_counterexample :
    search_products (some (.obj [("data", .obj []), ("products", .arr [.str "x"])]))
      = .ok (.arr [])
    ∧ normalizeSpec (.obj [("data", .obj []), ("products", .arr [.str "x"])])
      = .arr [.str "x"]
    ∧ Json.arr ([] : List Json) ≠ Json.arr [.str "x"] := by
  refine ⟨rfl, rfl, fun h => ?_⟩
  injection h with h2
  exact (List.cons_ne_nil _ _) h2.symm

/-- C2 amended: the `data` key alone selects the first branch — the
result is then `data['data'].get('products', [])` regardless of any
top-level `products` key; otherwise a top-level `products` key is used,
a bare sequence is used directly, and anything else yields the empty
list.  The three envelope variants `data.products`, `products` and bare
array still normalize to the same list. -/
theorem C2_normalizer_amended :
    (∀ xs : List Json,
      search_products (some (.obj [("data", .obj [("products", .arr xs)])])) = .ok (.arr xs)
      ∧ search_products (some (.obj [("products", .arr xs)])) = .ok (.arr xs)
      ∧ search_products (some (.arr xs)) = .ok (.arr xs))
    ∧ (∀ rest : List (String × Json),
      search_products (some (.obj (("data", Json.obj []) :: rest))) = .ok (.arr []))
    ∧ search_products none = .ok (.arr []) := by
  refine ⟨fun xs => ⟨rfl, rfl, ?_⟩, fun rest => rfl, rfl⟩
  cases xs <;> rfl

/-- A successful extraction must come out of `extract_core` as
`.ok (some _)` — the outer exception handler only turns errors into
`none`. -/
theorem extract_eq_core {j : Json} {pr : Product}
    (h : extract_product_info j = some pr) : extract_core j = .ok (some pr) := by
  unfold extract_product_info at h
  cases hc : extract_core j with
  | ok r => rw [hc] at h; simp only at h; rw [h]
  | error e => rw [hc] at h; simp only at h; exact absurd h (by simp)

/-- Any record accepted by the validation gate has truthy title, image
and asin. -/
theorem extract_gate_truthy {j : Json} {pr : Product}
    (h : extract_product_info j = some pr) :
    truthy pr.title = true ∧ truthy pr.image = true ∧ truthy pr.asin = true := by
  have hc := extract_eq_core h
  cases j with
  | obj fs =>
    unfold extract_core at hc
    dsimp only at hc
    split at hc
    · exact absurd hc (by simp)
    · split at hc
      · exact absurd hc (by simp)
      · rename_i hcond
        simp only [Except.ok.injEq, Option.some.injEq] at hc
        subst hc
        simp only [Bool.or_eq_true, Bool.not_eq_true', not_or] at hcond
        push_neg at hcond
        refine ⟨?_, ?_, ?_⟩ <;> simp_all
  | null => exact absurd hc (by simp [extract_core])
  | bool b => exact absurd hc (by simp [extract_core])
  | num v => exact absurd hc (by simp [extract_core])
  | str s => exact absurd hc (by simp [extract_core])
  | arr xs => exact absurd hc (by simp [extract_core])

/-- Whatever `candidateInfo` accepts is the result of a successful
`extract_product_info` call (on the candidate itself or on the fetched
detail payload). -/
theorem candidateInfo_fst_some {env : Env} {product asin : Json} {pr : Product}
    (h : (candidateInfo env product asin).1 = some pr) :
    ∃ j, extract_product_info j = some pr := by
  unfold candidateInfo at h
  dsimp only at h
  split at h
  · split at h
    · exact ⟨_, h⟩
    · exact ⟨product, h⟩
  · exact ⟨product, h⟩

/-- Every product in the loop's accepted list came from a successful
extraction. -/
theorem loop_details_mem {env : Env} :
    ∀ {candidates : List Json} {pr : Product},
      pr ∈ (product_loop env candidates).details →
      ∃ j, extract_product_info j = some pr := by
  intro candidates
  induction candidates with
  | nil => intro pr h; simp [product_loop] at h
  | cons c rest ih =>
    intro pr h
    unfold product_loop at h
    cases c with
    | obj fs =>
      dsimp only at h
      split at h
      · split at h
        · split at h
          · rcases List.mem_cons.mp h with h1 | h2
            · subst h1; exact candidateInfo_fst_some (by assumption)
            · exact ih h2
          · rcases List.mem_singleton.mp h with h1
            subst h1; exact candidateInfo_fst_some (by assumption)
        · exact ih h
      · exact ih h
    | null => simp at h
    | bool b => simp at h
    | num v => simp at h
    | str s => simp at h
    | arr xs => simp at h

/-- C10: `extract_product_info` is total over arbitrary JSON inputs —
every input yields either a complete `Product` record or `none`; an
exception escaping the body (`extract_core = .error`) is converted to
`none` by the outer handler; and every non-mapping input yields `none`. -/
theorem C10_extract_total (j : Json) :
    ((∃ pr, extract_product_info j = some pr) ∨ extract_product_info j = none)
    ∧ (extract_core j = .error () → extract_product_info j = none)
    ∧ ((∀ fs, j ≠ Json.obj fs) → extract_product_info j = none) := by
  refine ⟨?_, ?_, ?_⟩
  · cases h : extract_product_info j with
    | some pr => exact .inl ⟨pr, rfl⟩
    | none => exact .inr rfl
  · intro he
    unfold extract_product_info
    rw [he]
  · intro hno
    cases j with
    | obj fs => exact absurd rfl (hno fs)
    | null => rfl
    | bool b => rfl
    | num v => rfl
    | str s => rfl
    | arr xs => rfl

/-- Witness for C10 at the non-mapping input `"x"`. -/
theorem C10_extract_total_witness : extract_product_info (Json.str "x") = none :=
  (C10_extract_total (Json.str "x")).2.2 (fun _ h => Json.noConfusion h)

/-- C4: a raw product whose title, image or asin is empty (falsy) after
trying both naming schemes extracts to `none`; and every product the
driver loop accepts (hence every rendered product) has truthy title,
image and asin — so such a product is never rendered. -/
theorem C4_required_field_gate :
    (∀ fs : List (String × Json),
      (truthy (resolve2 fs "title" "product_title") = false
       ∨ truthy (resolve2 fs "image" "product_photo") = false
       ∨ truthy (resolve2 fs "asin" "product_asin") = false) →
      extract_product_info (Json.obj fs) = none)
    ∧ (∀ (env : Env) (candidates : List Json) (pr : Product),
      pr ∈ (product_loop env candidates).details →
      truthy pr.title = true ∧ truthy pr.image = true ∧ truthy pr.asin = true) := by
  constructor
  · intro fs hfield
    cases h : extract_product_info (Json.obj fs) with
    | none => rfl
    | some pr =>
      have ⟨ht, hi, ha⟩ := extract_gate_truthy h
      have hc := extract_eq_core h
      unfold extract_core at hc
      dsimp only at hc
      split at hc
      · exact absurd hc (by simp)
      · split at hc
        · exact absurd hc (by simp)
        · rename_i hcond
          rcases hfield with hf | hf | hf <;> simp [hf] at hcond
  · intro env candidates pr hmem
    obtain ⟨j, hj⟩ := loop_details_mem hmem
    exact extract_gate_truthy hj

/-- Witness for C4: the empty raw product extracts to `none`, and the
product accepted from `goodObj` has truthy mandatory fields. -/
theorem C4_required_field_gate_witness :
    extract_product_info (Json.obj []) = none
    ∧ (truthy goodProduct.title = true ∧ truthy goodProduct.image = true
       ∧ truthy goodProduct.asin = true) :=
  ⟨C4_required_field_gate.1 [] (Or.inl (by decide)),
   C4_required_field_gate.2 envWithTemplate [goodObj] goodProduct
     (List.mem_singleton.mpr rfl)⟩

/-- C5 counterexample: a candidate list of two raw products in which the
first lacks an asin is fully processed without exception, yet only one
0.5-second pause occurs — the pause is not applied after every raw
product candidate. -/
theorem C5_pause_counterexample :
    (product_loop envWithTemplate [noAsinObj, goodObj]).raised = false
    ∧ (product_loop envWithTemplate [noAsinObj, goodObj]).sleeps = 1
    ∧ [noAsinObj, goodObj].length = 2 :=
  ⟨rfl, rfl, rfl⟩

/-- C5 amended: in an exception-free pass over the candidates, the
fixed 0.5-second pause occurs exactly once per candidate that has a
truthy asin under either naming scheme — after successful extractions
and after extraction-level skips alike — while candidates missing an
asin are skipped by `continue` before reaching the pause. -/
theorem C5_pause_amended (env : Env) (candidates : List Json)
    (h : (product_loop env candidates).raised = false) :
    (product_loop env candidates).sleeps = (candidates.filter hasTruthyAsin).length := by
  induction candidates with
  | nil => simp [product_loop]
  | cons c rest ih =>
    unfold product_loop at h ⊢
    cases c with
    | obj fs =>
      dsimp only at h ⊢
      by_cases ha : truthy (resolveAsin fs) = true
      · simp only [ha, if_true] at h ⊢
        cases hs : (candidateInfo env (.obj fs) (resolveAsin fs)).1 with
        | some p =>
          simp only [hs] at h ⊢
          by_cases hsl : sliceable p.title = true
          · simp only [hsl, if_true] at h ⊢
            rw [List.filter_cons_of_pos (by simpa [hasTruthyAsin] using ha)]
            simp [ih h]
          · simp [hsl] at h
        | none =>
          simp only [hs] at h ⊢
          rw [List.filter_cons_of_pos (by simpa [hasTruthyAsin] using ha)]
          simp [ih h]
      · simp only [Bool.not_eq_true] at ha
        simp only [ha, if_false] at h ⊢
        rw [List.filter_cons_of_neg (by simp [hasTruthyAsin, ha])]
        exact ih h
    | null => simp at h
    | bool b => simp at h
    | num v => simp at h
    | str s => simp at h
    | arr xs => simp at h

/-- Witness for C5 amended on the two-candidate list. -/
theorem C5_pause_amended_witness :
    (product_loop envWithTemplate [noAsinObj, goodObj]).sleeps
      = ([noAsinObj, goodObj].filter hasTruthyAsin).length :=
  C5_pause_amended envWithTemplate [noAsinObj, goodObj] rfl

/-- C9: the pipeline is a pure function of its inputs — identical API
responses, niche list and template produce identical run results, in
particular byte-identical output files (no timestamps or randomness
enter the model) — and, in an exception-free pass, the accepted-product
list the renderer receives is exactly the candidates' successful
extractions in candidate order (API result order minus skipped
products). -/
theorem C9_deterministic_order :
    (∀ env₁ env₂ : Env, env₁ = env₂ → pymain env₁ = pymain env₂)
    ∧ (∀ (env : Env) (candidates : List Json),
      (product_loop env candidates).raised = false →
      (product_loop env candidates).details = acceptedProducts env candidates) := by
  constructor
  · intro e1 e2 h
    rw [h]
  · intro env candidates h
    induction candidates with
    | nil => simp [product_loop, acceptedProducts]
    | cons c rest ih =>
      unfold product_loop at h ⊢
      cases c with
      | obj fs =>
        dsimp only at h ⊢
        by_cases ha : truthy (resolveAsin fs) = true
        · simp only [ha, if_true] at h ⊢
          cases hs : (candidateInfo env (.obj fs) (resolveAsin fs)).1 with
          | some p =>
            simp only [hs] at h ⊢
            by_cases hsl : sliceable p.title = true
            · simp only [hsl, if_true] at h ⊢
              rw [acceptedProducts, List.filterMap_cons]
              simp only [acceptedOf, ha, if_true, hs]
              exact congrArg (p :: ·) (ih h)
            · simp [hsl] at h
          | none =>
            simp only [hs] at h ⊢
            rw [acceptedProducts, List.filterMap_cons]
            simp only [acceptedOf, ha, if_true, hs]
            exact ih h
        · simp only [Bool.not_eq_true] at ha
          simp only [ha, if_false] at h ⊢
          rw [acceptedProducts, List.filterMap_cons]
          simp only [acceptedOf, ha, if_false]
          exact ih h
      | null => simp at h
      | bool b => simp at h
      | num v => simp at h
      | str s => simp at h
      | arr xs => simp at h

/-- Witness for C9 at a concrete environment and candidate list. -/
theorem C9_deterministic_order_witness :
    pymain envWithTemplate = pymain envWithTemplate
    ∧ (product_loop envWithTemplate [goodObj]).details
        = acceptedProducts envWithTemplate [goodObj] :=
  ⟨C9_deterministic_order.1 envWithTemplate envWithTemplate rfl,
   C9_deterministic_order.2 envWithTemplate [goodObj] rfl⟩

/-- C7 counterexample: with the template file missing, a niche that
accepts one product still writes no file and is not reported as
succeeded — the write in the claim's second branch is not
unconditional. -/
theorem C7_write_counterexample :
    0 < (generate_site envNoTemplate "Niche" "kw").accepted.length
    ∧ (generate_site envNoTemplate "Niche" "kw").write = none
    ∧ (generate_site envNoTemplate "Niche" "kw").outcome ≠ NicheOutcome.ok true := by
  exact ⟨by decide, rfl, by decide⟩

/-- C7 amended: a niche with zero accepted products never writes a file
and is never reported as succeeded; a niche with at least one accepted
product that finishes without an uncaught exception (in particular the
template loads) is reported as succeeded and writes exactly one
`index.html` under its slug directory, containing the rendered page. -/
theorem C7_write_amended (env : Env) (niche keyword : String) :
    ((generate_site env niche keyword).accepted = [] →
      (generate_site env niche keyword).write = none
      ∧ (generate_site env niche keyword).outcome ≠ NicheOutcome.ok true)
    ∧ ((generate_site env niche keyword).accepted ≠ [] →
      (generate_site env niche keyword).outcome ≠ NicheOutcome.exn →
      ∃ template, env.template = some template
        ∧ (generate_site env niche keyword).outcome = NicheOutcome.ok true
        ∧ (generate_site env niche keyword).write
            = some ("sites/" ++ slugify niche ++ "/index.html",
                    renderPage template niche (generate_site env niche keyword).accepted)) := by
  cases hsp : search_products (call_api (env.searchHandler keyword) 0) with
  | error e =>
    exact ⟨fun _ => ⟨by simp [generate_site, hsp], by simp [generate_site, hsp]⟩,
      fun hne _ => absurd (by simp [generate_site, hsp]) hne⟩
  | ok products =>
    by_cases ht : truthy products = true
    · cases products with
      | arr xs =>
        by_cases hr : (product_loop env (xs.take 10)).raised = true
        · refine ⟨fun _ => ⟨by simp [generate_site, hsp, ht, hr], by simp [generate_site, hsp, ht, hr]⟩,
            fun _ hexn => absurd (by simp [generate_site, hsp, ht, hr]) hexn⟩
        · simp only [Bool.not_eq_true] at hr
          by_cases hd : (product_loop env (xs.take 10)).details.isEmpty = true
          · refine ⟨fun _ => ⟨by simp [generate_site, hsp, ht, hr, hd],
              by simp [generate_site, hsp, ht, hr, hd]⟩, fun hne _ => ?_⟩
            refine absurd ?_ hne
            simpa [generate_site, hsp, ht, hr, hd] using List.isEmpty_iff.mp hd
          · simp only [Bool.not_eq_true] at hd
            have hne' : (product_loop env (xs.take 10)).details ≠ [] := by
              simpa [List.isEmpty_iff] using hd
            cases htm : env.template with
            | none =>
              refine ⟨fun hempty => absurd ?_ hne',
                fun _ hexn => absurd (by simp [generate_site, hsp, ht, hr, hd, htm]) hexn⟩
              simpa [generate_site, hsp, ht, hr, hd, htm] using hempty
            | some t =>
              refine ⟨fun hempty => absurd ?_ hne', fun _ _ => ⟨t, rfl, ?_, ?_⟩⟩
              · simpa [generate_site, hsp, ht, hr, hd, htm] using hempty
              · simp [generate_site, hsp, ht, hr, hd, htm]
              · simp [generate_site, hsp, ht, hr, hd, htm]
      | null => simp [truthy] at ht
      | bool b =>
        exact ⟨fun _ => ⟨by simp [generate_site, hsp, ht], by simp [generate_site, hsp, ht]⟩,
          fun hne _ => absurd (by simp [generate_site, hsp, ht]) hne⟩
      | num v =>
        exact ⟨fun _ => ⟨by simp [generate_site, hsp, ht], by simp [generate_site, hsp, ht]⟩,
          fun hne _ => absurd (by simp [generate_site, hsp, ht]) hne⟩
      | str s =>
        exact ⟨fun _ => ⟨by simp [generate_site, hsp, ht], by simp [generate_site, hsp, ht]⟩,
          fun hne _ => absurd (by simp [generate_site, hsp, ht]) hne⟩
      | obj fs =>
        exact ⟨fun _ => ⟨by simp [generate_site, hsp, ht], by simp [generate_site, hsp, ht]⟩,
          fun hne _ => absurd (by simp [generate_site, hsp, ht]) hne⟩
    · simp only [Bool.not_eq_true] at ht
      exact ⟨fun _ => ⟨by simp [generate_site, hsp, ht], by simp [generate_site, hsp, ht]⟩,
        fun hne _ => absurd (by simp [generate_site, hsp, ht]) hne⟩

/-- Witness for C7 amended at a concrete succeeding niche. -/
theorem C7_write_amended_witness :
    ∃ template, envWithTemplate.template = some template
      ∧ (generate_site envWithTemplate "Niche" "kw").outcome = NicheOutcome.ok true
      ∧ (generate_site envWithTemplate "Niche" "kw").write
          = some ("sites/" ++ slugify "Niche" ++ "/index.html",
                  renderPage template "Niche" (generate_site envWithTemplate "Niche" "kw").accepted) :=
  (C7_write_amended envWithTemplate "Niche" "kw").2
    (List.ne_nil_of_length_pos (by decide)) (by decide)

/-- With the template file missing, no niche can be reported as
succeeded and no file is written: the failure surfaces inside
`generate_site`, per niche, and is caught by `main`. -/
theorem gen_no_template {env : Env} (h : env.template = none) (n k : String) :
    (generate_site env n k).write = none
    ∧ (generate_site env n k).outcome ≠ NicheOutcome.ok true := by
  cases hsp : search_products (call_api (env.searchHandler k) 0) with
  | error e => exact ⟨by simp [generate_site, hsp], by simp [generate_site, hsp]⟩
  | ok products =>
    by_cases ht : truthy products = true
    · cases products with
      | arr xs =>
        by_cases hr : (product_loop env (xs.take 10)).raised = true
        · exact ⟨by simp [generate_site, hsp, ht, hr], by simp [generate_site, hsp, ht, hr]⟩
        · simp only [Bool.not_eq_true] at hr
          by_cases hd : (product_loop env (xs.take 10)).details.isEmpty = true
          · exact ⟨by simp [generate_site, hsp, ht, hr, hd],
              by simp [generate_site, hsp, ht, hr, hd]⟩
          · simp only [Bool.not_eq_true] at hd
            exact ⟨by simp [generate_site, hsp, ht, hr, hd, h],
              by simp [generate_site, hsp, ht, hr, hd, h]⟩
      | null => simp [truthy] at ht
      | bool b => exact ⟨by simp [generate_site, hsp, ht], by simp [generate_site, hsp, ht]⟩
      | num v => exact ⟨by simp [generate_site, hsp, ht], by simp [generate_site, hsp, ht]⟩
      | str s => exact ⟨by simp [generate_site, hsp, ht], by simp [generate_site, hsp, ht]⟩
      | obj fs => exact ⟨by simp [generate_site, hsp, ht], by simp [generate_site, hsp, ht]⟩
    · simp only [Bool.not_eq_true] at ht
      exact ⟨by simp [generate_site, hsp, ht], by simp [generate_site, hsp, ht]⟩

/-- With the template missing, the whole niche loop produces no writes
and no successes. -/
theorem runLoop_no_template {env : Env} (h : env.template = none) :
    ∀ niches : List (String × String),
      (runLoop env niches).writes = [] ∧ (runLoop env niches).successCount = 0 := by
  intro niches
  induction niches with
  | nil => exact ⟨rfl, rfl⟩
  | cons nk rest ih =>
    obtain ⟨n, k⟩ := nk
    have hg := gen_no_template h n k
    unfold runLoop
    dsimp only
    exact ⟨by simp [hg.1, ih.1], by simp [if_neg hg.2, ih.2]⟩

/-- C6 counterexample: with the template missing, the run does not
abort before niche processing — both niches are fully processed (two
rate-limit pauses, two template-read attempts at render time) before
the run exits with failure; and even with the template present it is
read once per rendered niche (twice here), not once at startup. -/
theorem C6_template_counterexample :
    (pymain envNoTemplate).exitCode = 1
    ∧ (pymain envNoTemplate).sleeps = 2
    ∧ (pymain envNoTemplate).templateReads = 2
    ∧ (pymain envNoTemplate).writes = []
    ∧ (pymain envWithTemplate).templateReads = 2 :=
  ⟨rfl, rfl, rfl, rfl, rfl⟩

/-- C6 amended: the template is read inside per-niche rendering, once
per niche that accepts at least one product, not once at startup; a
missing template is not an immediate fatal error — every niche fails
non-fatally, the run continues, writes nothing, and exits with failure
only because zero sites were generated. -/
theorem C6_template_amended :
    (∀ env : Env, env.template = none →
      (pymain env).exitCode = 1 ∧ (pymain env).writes = [])
    ∧ (∀ (env : Env) (niche keyword : String),
      (generate_site env niche keyword).outcome = NicheOutcome.ok true →
      (generate_site env niche keyword).templateReads = 1) := by
  constructor
  · intro env h
    unfold pymain
    by_cases hk : env.apiKey = ""
    · simp [hk]
    · cases hn : env.nichesFile with
      | none => simp [hk, hn]
      | some rows =>
        by_cases he : (rows.filter (fun r => !(r.1 == "") && !(r.2 == ""))).isEmpty = true
        · simp [hk, hn, he]
        · have hr := runLoop_no_template h (rows.filter (fun r => !(r.1 == "") && !(r.2 == "")))
          simp [hk, hn, he, hr.1, hr.2]
  · intro env niche keyword hsucc
    cases hsp : search_products (call_api (env.searchHandler keyword) 0) with
    | error e => simp [generate_site, hsp] at hsucc
    | ok products =>
      by_cases ht : truthy products = true
      · cases products with
        | arr xs =>
          by_cases hr : (product_loop env (xs.take 10)).raised = true
          · simp [generate_site, hsp, ht, hr] at hsucc
          · simp only [Bool.not_eq_true] at hr
            by_cases hd : (product_loop env (xs.take 10)).details.isEmpty = true
            · simp [generate_site, hsp, ht, hr, hd] at hsucc
            · simp only [Bool.not_eq_true] at hd
              cases htm : env.template with
              | none => simp [generate_site, hsp, ht, hr, hd, htm] at hsucc
              | some t => simp [generate_site, hsp, ht, hr, hd, htm]
        | null => simp [truthy] at ht
        | bool b => simp [generate_site, hsp, ht] at hsucc
        | num v => simp [generate_site, hsp, ht] at hsucc
        | str s => simp [generate_site, hsp, ht] at hsucc
        | obj fs => simp [generate_site, hsp, ht] at hsucc
      · simp only [Bool.not_eq_true] at ht
        simp [generate_site, hsp, ht] at hsucc

/-- Witness for C6 amended: the missing-template environment exits 1
with no writes, and a successful niche reads the template once. -/
theorem C6_template_amended_witness :
    ((pymain envNoTemplate).exitCode = 1 ∧ (pymain envNoTemplate).writes = [])
    ∧ (generate_site envWithTemplate "A" "a").templateReads = 1 :=
  ⟨C6_template_amended.1 envNoTemplate rfl,
   C6_template_amended.2 envWithTemplate "A" "a" (by decide)⟩
theorem parseMantissa_den_pos {cs : List Char} {x : PyNum}
    (h : parseMantissa cs = some x) : 0 < x.den := by
  unfold parseMantissa at h
  split at h
  · split at h
    · injection h with h1; rw [← h1]; exact one_pos
    · exact absurd h (by simp)
  · split at h
    · injection h with h1; rw [← h1]
      exact pow_pos (by norm_num) _
    · exact absurd h (by simp)

theorem applyExp_den_pos {x y : PyNum} {cs : List Char}
    (h : applyExp x cs = some y) (hx : 0 < x.den) : 0 < y.den := by
  unfold applyExp at h
  split at h
  · split at h
    · injection h with h1; rw [← h1]
      exact mul_pos hx (pow_pos (by norm_num) _)
    · exact absurd h (by simp)
  · split at h
    · injection h with h1; rw [← h1]; exact hx
    · exact absurd h (by simp)
  · split at h
    · injection h with h1; rw [← h1]; exact hx
    · exact absurd h (by simp)

theorem parsePyFloat_den_pos {s : String} {x : PyNum}
    (h : parsePyFloat s = some x) : 0 < x.den := by
  unfold parsePyFloat at h
  dsimp only at h
  split at h
  · rcases Option.map_eq_some'.mp h with ⟨m, hm, hmk⟩
    have hden := parseMantissa_den_pos hm
    split at hmk <;> (rw [← hmk]; exact hden)
  · rcases Option.bind_eq_some.mp h with ⟨mv, hmv, hrest⟩
    rcases Option.map_eq_some'.mp hrest with ⟨av, hav, hmk⟩
    have hden := applyExp_den_pos hav (parseMantissa_den_pos hmv)
    split at hmk <;> (rw [← hmk]; exact hden)

theorem truncQ_neg (q : ℚ) : truncQ (-q) = -truncQ q := by
  unfold truncQ
  rcases lt_trichotomy q 0 with h | h | h
  · rw [if_pos (by linarith), if_neg (by linarith), Int.floor_neg]
  · subst h; simp
  · rw [if_neg (by linarith), if_pos (by linarith), Int.ceil_neg]

theorem floor_intCast_div_pos {D : ℤ} (N : ℤ) (hD : 0 < D) :
    ⌊(N : ℚ) / (D : ℚ)⌋ = N / D := by
  have h0 : D = ((D.toNat : ℕ) : ℤ) := (Int.toNat_of_nonneg hD.le).symm
  rw [h0]
  push_cast
  exact Rat.floor_intCast_div_natCast N D.toNat

theorem tdiv_eq_truncQ_pos {N D : ℤ} (hD : 0 < D) :
    Int.tdiv N D = truncQ ((N : ℚ) / (D : ℚ)) := by
  rcases le_or_lt 0 N with hN | hN
  · rw [truncQ, if_pos (by positivity)]
    rw [floor_intCast_div_pos N hD, Int.tdiv_eq_ediv hN hD.le]
  · have hq : (N : ℚ) / (D : ℚ) < 0 :=
      div_neg_of_neg_of_pos (by exact_mod_cast hN) (by exact_mod_cast hD)
    rw [truncQ, if_neg (by linarith)]
    rw [show (N : ℚ) / (D : ℚ) = -(((-N : ℤ) : ℚ) / (D : ℚ)) by push_cast; ring]
    rw [Int.ceil_neg, floor_intCast_div_pos (-N) hD]
    rw [show Int.tdiv N D = -Int.tdiv (-N) D by rw [Int.neg_tdiv]; ring]
    rw [Int.tdiv_eq_ediv (by omega) hD.le]

theorem tdiv_eq_truncQ {N D : ℤ} (hD : D ≠ 0) :
    Int.tdiv N D = truncQ ((N : ℚ) / (D : ℚ)) := by
  rcases hD.lt_or_lt with hneg | hpos
  · have h1 := tdiv_eq_truncQ_pos (N := -N) (D := -D) (by omega)
    have h2 : Int.tdiv N D = Int.tdiv (-N) (-D) := by
      rw [Int.tdiv_neg, Int.neg_tdiv]; ring
    rw [h2, h1]
    congr 1
    push_cast
    rw [neg_div_neg_eq]
  · exact tdiv_eq_truncQ_pos hpos

theorem discount_formula_toRat {p o : PyNum} (hp : 0 < p.den) (ho : 0 < o.den)
    (hon : o.num ≠ 0) :
    ((100 * (o.num * p.den - p.num * o.den) : ℤ) : ℚ) / ((p.den * o.num : ℤ) : ℚ)
      = (o.toRat - p.toRat) / o.toRat * 100 := by
  have h1 : (p.den : ℚ) ≠ 0 := by exact_mod_cast hp.ne'
  have h2 : (o.den : ℚ) ≠ 0 := by exact_mod_cast ho.ne'
  have h3 : (o.num : ℚ) ≠ 0 := by exact_mod_cast hon
  unfold PyNum.toRat
  push_cast
  field_simp
  ring

theorem toRat_lt_iff {p o : PyNum} (hp : 0 < p.den) (ho : 0 < o.den) :
    p.toRat < o.toRat ↔ p.num * o.den < o.num * p.den := by
  unfold PyNum.toRat
  rw [div_lt_div_iff₀ (by exact_mod_cast hp) (by exact_mod_cast ho)]
  exact_mod_cast Iff.rfl

theorem toRat_eq_zero_iff {o : PyNum} (ho : 0 < o.den) : o.toRat = 0 ↔ o.num = 0 := by
  unfold PyNum.toRat
  rw [div_eq_zero_iff]
  constructor
  · rintro (h | h)
    · exact_mod_cast h
    · exact absurd h (by exact_mod_cast ho.ne')
  · intro h
    exact .inl (by exact_mod_cast h)

theorem pynum_num_nonneg {o : PyNum} (hden : 0 < o.den) (h : 0 ≤ o.toRat) :
    0 ≤ o.num := by
  by_contra hneg
  push_neg at hneg
  have : o.toRat < 0 :=
    div_neg_of_neg_of_pos (by exact_mod_cast hneg) (by exact_mod_cast hden)
  linarith

theorem pyOr_str_empty (s : String) : pyOr (Json.str s) (Json.str "") = Json.str s := by
  unfold pyOr
  by_cases h : truthy (Json.str s) = true
  · rw [if_pos h]
  · rw [if_neg h]
    have hs : s = "" := by simpa [truthy] using h
    rw [hs]

/-- Value of the discount computation when both price strings are
non-empty and parse. -/
theorem computeDiscount_eval {sp so : String} {p o : PyNum}
    (hsp : sp ≠ "") (hso : so ≠ "")
    (hp : parsePyFloat sp = some p) (ho : parsePyFloat so = some o) :
    computeDiscount (.str sp) (.str so)
      = .ok (if o.num * p.den > p.num * o.den then
               (if o.num = 0 then 0
                else Int.tdiv (100 * (o.num * p.den - p.num * o.den)) (p.den * o.num))
             else 0) := by
  unfold computeDiscount
  have h1 : truthy (Json.str so) = true := by simp [truthy, hso]
  have h2 : truthy (Json.str sp) = true := by simp [truthy, hsp]
  rw [h1, h2]
  simp only [Bool.and_self, if_true]
  unfold pyFloat
  dsimp only
  rw [hp, ho]
  dsimp only
  split
  · split <;> rfl
  · rfl

/-- Value of the discount computation when the price string fails to
parse (covers the empty string as well). -/
theorem computeDiscount_price_unparsable {sp so : String}
    (hp : parsePyFloat sp = none) :
    computeDiscount (.str sp) (.str so) = .ok 0 := by
  unfold computeDiscount
  by_cases h : (truthy (Json.str so) && truthy (Json.str sp)) = true
  · rw [if_pos h]
    unfold pyFloat
    dsimp only
    rw [hp]
  · rw [if_neg h]

/-- Value of the discount computation when the original-price string
fails to parse (covers the empty string as well). -/
theorem computeDiscount_original_unparsable {sp so : String}
    (ho : parsePyFloat so = none) :
    computeDiscount (.str sp) (.str so) = .ok 0 := by
  unfold computeDiscount
  by_cases h : (truthy (Json.str so) && truthy (Json.str sp)) = true
  · rw [if_pos h]
    unfold pyFloat
    dsimp only
    cases hps : parsePyFloat sp with
    | none => rfl
    | some p => rw [ho]
  · rw [if_neg h]

/-- Extraction on `mkRaw` succeeds (title/image/asin fixed non-empty)
and its discount is whatever the discount computation returned. -/
theorem extract_mkRaw {ps os : String} {d : ℤ}
    (h : computeDiscount (.str (stripPrice ps)) (.str (stripPrice os)) = .ok d) :
    (extract_product_info (mkRaw ps os)).map Product.discount = some d := by
  have hres : ∀ s : String,
      stripIfStr (resolve2 [("title", Json.str "T"), ("image", Json.str "I"),
        ("asin", Json.str "A"), ("price", Json.str ps), ("original_price", Json.str os)]
        "price" "product_price") = Json.str (stripPrice ps) := by
    intro s
    show stripIfStr (pyOr (Json.str ps) (Json.str "")) = _
    rw [pyOr_str_empty]
    rfl
  have hreso : stripIfStr (resolve2 [("title", Json.str "T"), ("image", Json.str "I"),
      ("asin", Json.str "A"), ("price", Json.str ps), ("original_price", Json.str os)]
      "original_price" "product_original_price") = Json.str (stripPrice os) := by
    show stripIfStr (pyOr (Json.str os) (Json.str "")) = _
    rw [pyOr_str_empty]
    rfl
  unfold extract_product_info mkRaw extract_core
  dsimp only
  rw [hres "", hreso, h]
  rfl

/-- C1 counterexample: for price "-9" and original price "-8" (both
parse, with original > price, all float arithmetic exact), the code's
`int()` truncation yields -12 while the claimed floor formula yields
-13 — `discount = floor(...)` does not hold on the code. -/
theorem C1_discount_counterexample :
    (extract_product_info (mkRaw "-9" "-8")).map Product.discount = some (-12)
    ∧ (⌊(((-8 : ℚ) - (-9)) / (-8)) * 100⌋ : ℤ) = -13 := by
  constructor
  · decide
  · rw [Int.floor_eq_iff]
    norm_num

/-- C1 amended: when both stripped price strings are non-empty and
parse with original > price, the discount is the truncation toward zero
(Python `int()`) of ((original - price)/original × 100) — which equals
the claimed floor whenever the original price is positive; for
original ≤ price, for either string unparsable (or empty), and for
original = 0 (the caught division by zero) the discount is 0 and the
product record is still produced — no error propagates. -/
theorem C1_discount_amended (ps os : String) (p o : PyNum)
    (hps : stripPrice ps ≠ "") (hos : stripPrice os ≠ "")
    (hp : parsePyFloat (stripPrice ps) = some p)
    (ho : parsePyFloat (stripPrice os) = some o) :
    (p.toRat < o.toRat → o.toRat ≠ 0 →
      ((extract_product_info (mkRaw ps os)).map Product.discount
          = some (truncQ ((o.toRat - p.toRat) / o.toRat * 100))
        ∧ (0 < o.toRat →
          (extract_product_info (mkRaw ps os)).map Product.discount
            = some ⌊(o.toRat - p.toRat) / o.toRat * 100⌋)))
    ∧ (o.toRat ≤ p.toRat →
      (extract_product_info (mkRaw ps os)).map Product.discount = some 0)
    ∧ (o.toRat = 0 →
      (extract_product_info (mkRaw ps os)).map Product.discount = some 0)
    ∧ (∀ ps' os' : String, parsePyFloat (stripPrice ps') = none →
      (extract_product_info (mkRaw ps' os')).map Product.discount = some 0)
    ∧ (∀ ps' os' : String, parsePyFloat (stripPrice os') = none →
      (extract_product_info (mkRaw ps' os')).map Product.discount = some 0) := by
  have hpden := parsePyFloat_den_pos hp
  have hoden := parsePyFloat_den_pos ho
  have hcd := computeDiscount_eval hps hos hp ho
  refine ⟨fun hlt hne => ?_, fun hle => ?_, fun hz => ?_,
    fun ps' os' hnp => extract_mkRaw (computeDiscount_price_unparsable hnp),
    fun ps' os' hno => extract_mkRaw (computeDiscount_original_unparsable hno)⟩
  · have hcmp : p.num * o.den < o.num * p.den := (toRat_lt_iff hpden hoden).mp hlt
    have honz : o.num ≠ 0 := fun h0 => hne ((toRat_eq_zero_iff hoden).mpr h0)
    have hD : p.den * o.num ≠ 0 := mul_ne_zero hpden.ne' honz
    have hval : computeDiscount (.str (stripPrice ps)) (.str (stripPrice os))
        = .ok (Int.tdiv (100 * (o.num * p.den - p.num * o.den)) (p.den * o.num)) := by
      rw [hcd, if_pos hcmp, if_neg honz]
    have hmap := extract_mkRaw hval
    have htr : Int.tdiv (100 * (o.num * p.den - p.num * o.den)) (p.den * o.num)
        = truncQ ((o.toRat - p.toRat) / o.toRat * 100) := by
      rw [tdiv_eq_truncQ hD]
      congr 1
      exact discount_formula_toRat hpden hoden honz
    refine ⟨by rw [htr] at hmap; exact hmap, fun hopos => ?_⟩
    have hq : 0 ≤ (o.toRat - p.toRat) / o.toRat * 100 := by
      have h1 : 0 < o.toRat - p.toRat := by linarith
      have h2 := div_pos h1 hopos
      linarith
    have hfl : truncQ ((o.toRat - p.toRat) / o.toRat * 100)
        = ⌊(o.toRat - p.toRat) / o.toRat * 100⌋ := by
      rw [truncQ, if_pos hq]
    rw [htr, hfl] at hmap
    exact hmap
  · have hcmp : ¬ (p.num * o.den < o.num * p.den) :=
      fun hc => absurd ((toRat_lt_iff hpden hoden).mpr hc) (not_lt.mpr hle)
    exact extract_mkRaw (by rw [hcd, if_neg hcmp])
  · have honz : o.num = 0 := (toRat_eq_zero_iff hoden).mp hz
    by_cases hcmp : p.num * o.den < o.num * p.den
    · exact extract_mkRaw (by rw [hcd, if_pos hcmp, if_pos honz])
    · exact extract_mkRaw (by rw [hcd, if_neg hcmp])

/-- Witness for C1 amended at price "10", original price "20". -/
theorem C1_discount_amended_witness :
    (extract_product_info (mkRaw "10" "20")).map Product.discount
      = some (truncQ (((PyNum.mk 20 1).toRat - (PyNum.mk 10 1).toRat)
          / (PyNum.mk 20 1).toRat * 100))
    ∧ (extract_product_info (mkRaw "10" "20")).map Product.discount
      = some ⌊((PyNum.mk 20 1).toRat - (PyNum.mk 10 1).toRat)
          / (PyNum.mk 20 1).toRat * 100⌋ := by
  have h := C1_discount_amended "10" "20" ⟨10, 1⟩ ⟨20, 1⟩ (by decide) (by decide) rfl rfl
  have h1 := h.1 (by simp [PyNum.toRat]; decide) (by simp [PyNum.toRat])
  exact ⟨h1.1, h1.2 (by simp [PyNum.toRat])⟩

/-- C8 counterexample: price "-5" with original price "-2" (original >
price, exact float arithmetic) produces a Product whose discount is
-150, a negative value — discount ≥ 0 does not hold for every produced
record. -/
theorem C8_discount_nonneg_counterexample :
    (extract_product_info (mkRaw "-5" "-2")).map Product.discount = some (-150)
    ∧ ((-150 : ℤ) < 0) :=
  ⟨by decide, by decide⟩

/-- C8 amended: the discount of any produced Product record is ≥ 0
provided the parsed original price is not negative (with the parsed
fractions well formed, i.e. positive denominators — automatic for
every string or JSON-literal price).  A negative parsed original price
can produce a negative discount. -/
theorem C8_discount_nonneg_amended (j : Json) (pr : Product)
    (h : extract_product_info j = some pr)
    (hpden : ∀ x, parsedPrice j = some x → 0 < x.den)
    (hoden : ∀ x, parsedOriginal j = some x → 0 < x.den)
    (hpos : ∀ x, parsedOriginal j = some x → 0 ≤ x.num) :
    0 ≤ pr.discount := by
  have hc := extract_eq_core h
  cases j with
  | obj fs =>
    unfold extract_core at hc
    dsimp only at hc
    cases hcd : computeDiscount (stripIfStr (resolve2 fs "price" "product_price"))
        (stripIfStr (resolve2 fs "original_price" "product_original_price")) with
    | error e => rw [hcd] at hc; exact absurd hc (by simp)
    | ok d =>
      rw [hcd] at hc
      dsimp only at hc
      have hd : pr.discount = d := by
        split at hc
        · exact absurd hc (by simp)
        · simp only [Except.ok.injEq, Option.some.injEq] at hc
          rw [← hc]
      rw [hd]
      unfold computeDiscount at hcd
      split at hcd
      · split at hcd
        · exact absurd hcd (by simp)
        · injection hcd with h0
          omega
        · rename_i p hpf
          split at hcd
          · exact absurd hcd (by simp)
          · injection hcd with h0
            omega
          · rename_i o hof
            have hp' : parsedPrice (Json.obj fs) = some p := by
              unfold parsedPrice
              dsimp only
              rw [hpf]
            have ho' : parsedOriginal (Json.obj fs) = some o := by
              unfold parsedOriginal
              dsimp only
              rw [hof]
            have hpd := hpden p hp'
            have hon := hpos o ho'
            split at hcd
            · rename_i hgt
              split at hcd
              · injection hcd with h0
                omega
              · rename_i hz
                injection hcd with h0
                rw [← h0]
                have honpos : 0 < o.num := lt_of_le_of_ne hon (Ne.symm hz)
                have hN : 0 ≤ 100 * (o.num * p.den - p.num * o.den) :=
                  mul_nonneg (by norm_num) (le_of_lt (sub_pos.mpr hgt))
                have hD : 0 ≤ p.den * o.num := le_of_lt (mul_pos hpd honpos)
                exact Int.tdiv_nonneg hN hD
            · injection hcd with h0
              omega
      · injection hcd with h0
        omega
  | null => exact absurd hc (by simp [extract_core])
  | bool b => exact absurd hc (by simp [extract_core])
  | num v => exact absurd hc (by simp [extract_core])
  | str s => exact absurd hc (by simp [extract_core])
  | arr xs => exact absurd hc (by simp [extract_core])

/-- Witness for C8 amended at `goodObj` (prices "$10.00" / "$20.00"). -/
theorem C8_discount_nonneg_amended_witness : 0 ≤ goodProduct.discount :=
  C8_discount_nonneg_amended goodObj goodProduct rfl
    (fun x hx => by
      rw [show parsedPrice goodObj = some ⟨1000, 100⟩ from rfl] at hx
      injection hx with h
      rw [← h]
      decide)
    (fun x hx => by
      rw [show parsedOriginal goodObj = some ⟨2000, 100⟩ from rfl] at hx
      injection hx with h
      rw [← h]
      decide)
    (fun x hx => by
      rw [show parsedOriginal goodObj = some ⟨2000, 100⟩ from rfl] at hx
      injection hx with h
      rw [← h]
      decide)
